import Mathlib

/-!
Verification of the segment-cutting utility of the `bouncy` repository.

The program (`scripts/cut_segment.py`) loads a list of levels, selects one
level by name or id, cuts one segment of one polyline of its shape into two
polylines separated by a gap of a given width, and emits the rewritten list
of lines.  We embed the data model and the cutting computation shallowly:
floating-point numbers become real numbers, Python exceptions become an
error type carried by `Except`, and in-place list mutation becomes an
explicit function from the old list of lines to the new one.
-/

namespace Bouncy

/-- A 2D point, as the JSON objects `{x: number, y: number}`. -/
@[ext]
structure Point where
  x : ℝ
  y : ℝ

/-- A level: unique id, human-readable name, and the polylines of its shape
(`level["body"]["shape"]["lines"]`). -/
structure Level where
  id : String
  name : String
  lines : List (List Point)

/-- The failures `cut_segment` can raise:
`ValueError("Either name or id must be provided")`,
`ValueError("Level not found")`, an out-of-range list access,
`ZeroDivisionError` from the unit-vector division, and
`ValueError("Segment is too short to cut")`. -/
inductive CutError where
  | missingSelector
  | levelNotFound
  | indexError
  | zeroDivision
  | segmentTooShort
deriving DecidableEq, Repr

/-- `((x2 - x1) ** 2 + (y2 - y1) ** 2) ** 0.5`: the Euclidean length of the
segment from `p1` to `p2`. -/
noncomputable def segLength (p1 p2 : Point) : ℝ :=
  Real.sqrt ((p2.x - p1.x) ^ 2 + (p2.y - p1.y) ^ 2)

/-- `((x2 - x1) / segment_length, (y2 - y1) / segment_length)`. -/
noncomputable def segment_unit_vector (p1 p2 : Point) : ℝ × ℝ :=
  ((p2.x - p1.x) / segLength p1 p2, (p2.y - p1.y) / segLength p1 p2)

/-- `{"x": x_mid - width / 2 * u.x, "y": y_mid - width / 2 * u.y}`, the
point appended to the first output line. -/
noncomputable def new_point1 (p1 p2 : Point) (width : ℝ) : Point :=
  ⟨(p1.x + p2.x) / 2 - width / 2 * (segment_unit_vector p1 p2).1,
   (p1.y + p2.y) / 2 - width / 2 * (segment_unit_vector p1 p2).2⟩

/-- `{"x": x_mid + width / 2 * u.x, "y": y_mid + width / 2 * u.y}`, the
point prepended to the second output line. -/
noncomputable def new_point2 (p1 p2 : Point) (width : ℝ) : Point :=
  ⟨(p1.x + p2.x) / 2 + width / 2 * (segment_unit_vector p1 p2).1,
   (p1.y + p2.y) / 2 + width / 2 * (segment_unit_vector p1 p2).2⟩

/-- The core of `cut_segment` (lines 40-67 of `scripts/cut_segment.py`):
read `P1 = line[point_idx]` and `P2 = line[point_idx + 1]`, compute the
segment length and unit vector, fail if the segment is shorter than
`width`, and return the two lines
`line[: point_idx + 1] + [new_point1]` and `[new_point2] + line[point_idx + 1 :]`.
The unit-vector division is evaluated before the length check, so a
zero-length segment raises `ZeroDivisionError` there, whatever the width. -/
noncomputable def cutLine (line : List Point) (point_idx : ℕ) (width : ℝ) :
    Except CutError (List Point × List Point) :=
  match (line)[point_idx]?, (line)[point_idx + 1]? with
  | some p1, some p2 =>
    if segLength p1 p2 = 0 then .error .zeroDivision
    else if segLength p1 p2 < width then .error .segmentTooShort
    else
      .ok (line.take (point_idx + 1) ++ [new_point1 p1 p2 width],
       new_point2 p1 p2 width :: line.drop (point_idx + 1))
  | _, _ => .error .indexError

/-- The effect of `cut_segment` on the selected level's line collection:
`lines[line_idx] = new_line1; lines.insert(line_idx + 1, new_line2)` on
success; on any failure the exception propagates and the collection is
returned as it was. -/
noncomputable def cutLinesRun (width : ℝ) (line_idx point_idx : ℕ)
    (lines : List (List Point)) : List (List Point) × Option CutError :=
  match lines[line_idx]? with
  | none => (lines, some .indexError)
  | some line =>
    match cutLine line point_idx width with
    | .error e => (lines, some e)
    | .ok (l1, l2) => ((lines.set line_idx l1).insertIdx (line_idx + 1) l2, none)

/-- Python truthiness of an optional string option: `None` and `""` are
falsy, any other string is truthy. -/
def truthy : Option String → Bool
  | none => false
  | some s => !(s == "")

/-- The level filter of `cut_segment` (lines 24-30):
`if name: filter by name elif id: filter by id else: raise ValueError`. -/
def filterLevels (name id : Option String) (levels : List Level) :
    Except CutError (List Level) :=
  if truthy name then .ok (levels.filter fun level => level.name == name.getD "")
  else if truthy id then .ok (levels.filter fun level => level.id == id.getD "")
  else .error .missingSelector

/-- Level selection (lines 24-35): filter, fail with `Level not found` when
nothing matched, then take `levels[0]`. -/
def selectLevel (name id : Option String) (levels : List Level) :
    Except CutError Level :=
  match filterLevels name id levels with
  | .error e => .error e
  | .ok [] => .error .levelNotFound
  | .ok (level :: _) => .ok level

/-! ### Basic lemmas about the embedded operations -/

lemma segLength_nonneg (p1 p2 : Point) : 0 ≤ segLength p1 p2 :=
  Real.sqrt_nonneg _

lemma sq_segLength (p1 p2 : Point) :
    segLength p1 p2 ^ 2 = (p2.x - p1.x) ^ 2 + (p2.y - p1.y) ^ 2 :=
  Real.sq_sqrt (by positivity)

lemma segLength_horizontal (a b : ℝ) : segLength ⟨a, 0⟩ ⟨b, 0⟩ = |b - a| := by
  simp [segLength, Real.sqrt_sq_eq_abs]

lemma cutLine_ok (line : List Point) (point_idx : ℕ) (width : ℝ) (p1 p2 : Point)
    (hp1 : (line)[point_idx]? = some p1) (hp2 : (line)[point_idx + 1]? = some p2)
    (h0 : segLength p1 p2 ≠ 0) (hlt : ¬ segLength p1 p2 < width) :
    cutLine line point_idx width =
      .ok (line.take (point_idx + 1) ++ [new_point1 p1 p2 width],
       new_point2 p1 p2 width :: line.drop (point_idx + 1)) := by
  simp only [cutLine, hp1, hp2, if_neg h0, if_neg hlt]

lemma segLength_ex1 : segLength ⟨0, 0⟩ ⟨10, 0⟩ = 10 := by
  rw [segLength_horizontal]; norm_num

lemma cutLine_example :
    cutLine [⟨0, 0⟩, ⟨10, 0⟩] 0 2 = .ok ([⟨0, 0⟩, ⟨4, 0⟩], [⟨6, 0⟩, ⟨10, 0⟩]) := by
  rw [cutLine_ok [⟨0, 0⟩, ⟨10, 0⟩] 0 2 ⟨0, 0⟩ ⟨10, 0⟩ rfl rfl
      (by rw [segLength_ex1]; norm_num) (by rw [segLength_ex1]; norm_num)]
  simp [new_point1, new_point2, segment_unit_vector, segLength_ex1, Point.ext_iff]
  norm_num

/-- C8: for the input line `[{x:0,y:0}, {x:10,y:0}]` with `point_idx = 0` and
`width = 2`, the cut returns the lines `[{x:0,y:0},{x:4,y:0}]` and
`[{x:6,y:0},{x:10,y:0}]`. -/
theorem cut_example_concrete :
    cutLine [⟨0, 0⟩, ⟨10, 0⟩] 0 2 = .ok ([⟨0, 0⟩, ⟨4, 0⟩], [⟨6, 0⟩, ⟨10, 0⟩]) :=
  cutLine_example

lemma segLength_new_points (p1 p2 : Point) (width : ℝ)
    (h0 : segLength p1 p2 ≠ 0) (hw : 0 ≤ width) :
    segLength (new_point1 p1 p2 width) (new_point2 p1 p2 width) = width := by
  have hsq := sq_segLength p1 p2
  have expand : ((new_point2 p1 p2 width).x - (new_point1 p1 p2 width).x) ^ 2 +
      ((new_point2 p1 p2 width).y - (new_point1 p1 p2 width).y) ^ 2 =
      width ^ 2 * (((p2.x - p1.x) ^ 2 + (p2.y - p1.y) ^ 2) / segLength p1 p2 ^ 2) := by
    simp only [new_point1, new_point2, segment_unit_vector]
    ring
  have key : ((new_point2 p1 p2 width).x - (new_point1 p1 p2 width).x) ^ 2 +
      ((new_point2 p1 p2 width).y - (new_point1 p1 p2 width).y) ^ 2 = width ^ 2 := by
    rw [expand, ← hsq, div_self (pow_ne_zero 2 h0), mul_one]
  rw [segLength, key, Real.sqrt_sq hw]

/-- C1: for a valid `point_idx` and a positive `width` no larger than the
segment length, the point appended to the first output line and the point
prepended to the second are exactly `width` apart. -/
theorem cut_gap_width (line : List Point) (point_idx : ℕ) (width : ℝ)
    (p1 p2 : Point)
    (hp1 : (line)[point_idx]? = some p1) (hp2 : (line)[point_idx + 1]? = some p2)
    (hw : 0 < width) (hD : width ≤ segLength p1 p2) :
    ∃ l1 l2 A B,
      cutLine line point_idx width = .ok (l1, l2) ∧
      l1.getLast? = some A ∧ l2.head? = some B ∧ segLength A B = width := by
  have h0 : segLength p1 p2 ≠ 0 := ne_of_gt (lt_of_lt_of_le hw hD)
  refine ⟨_, _, new_point1 p1 p2 width, new_point2 p1 p2 width,
    cutLine_ok line point_idx width p1 p2 hp1 hp2 h0 (not_lt.mpr hD), ?_, rfl,
    segLength_new_points p1 p2 width h0 hw.le⟩
  simp

/-- C1 witness: the hypotheses hold for the example line with width 2. -/
theorem cut_gap_width_witness :
    (0 : ℝ) < 2 ∧ (2 : ℝ) ≤ segLength ⟨0, 0⟩ ⟨10, 0⟩ ∧
    (∃ l1 l2 A B,
      cutLine [⟨0, 0⟩, ⟨10, 0⟩] 0 2 = .ok (l1, l2) ∧
      l1.getLast? = some A ∧ l2.head? = some B ∧ segLength A B = 2) :=
  ⟨by norm_num, by rw [segLength_ex1]; norm_num,
   cut_gap_width [⟨0, 0⟩, ⟨10, 0⟩] 0 2 ⟨0, 0⟩ ⟨10, 0⟩ rfl rfl (by norm_num)
     (by rw [segLength_ex1]; norm_num)⟩

/-- C2 counterexample: at the example input, inserting `[A, B]` between the
trimmed output lines yields a four-point list, not the original two-point
line, so the concatenation with `[A, B]` does not reconstruct the input. -/
theorem cut_reconstruct_counterexample :
    cutLine [⟨0, 0⟩, ⟨10, 0⟩] 0 2 = .ok ([⟨0, 0⟩, ⟨4, 0⟩], [⟨6, 0⟩, ⟨10, 0⟩]) ∧
    ([(⟨0, 0⟩ : Point), ⟨4, 0⟩].dropLast ++ [(⟨4, 0⟩ : Point), ⟨6, 0⟩] ++
        [(⟨6, 0⟩ : Point), ⟨10, 0⟩].tail) ≠ [⟨0, 0⟩, ⟨10, 0⟩] := by
  refine ⟨cutLine_example, fun h => ?_⟩
  have hlen := congrArg List.length h
  simp at hlen

/-- C2 (amended): concatenating the first output line minus its appended
point with the second output line minus its prepended point reconstructs
the original point sequence exactly. -/
theorem cut_reconstructs_original (line : List Point) (point_idx : ℕ)
    (width : ℝ) (p1 p2 : Point)
    (hp1 : (line)[point_idx]? = some p1) (hp2 : (line)[point_idx + 1]? = some p2)
    (hw : 0 < width) (hD : width ≤ segLength p1 p2) :
    ∃ l1 l2,
      cutLine line point_idx width = .ok (l1, l2) ∧
      l1.dropLast ++ l2.tail = line := by
  have h0 : segLength p1 p2 ≠ 0 := ne_of_gt (lt_of_lt_of_le hw hD)
  refine ⟨_, _, cutLine_ok line point_idx width p1 p2 hp1 hp2 h0 (not_lt.mpr hD), ?_⟩
  simp [List.dropLast_concat, List.take_append_drop]

/-- C2 witness: the hypotheses hold for the example line with width 2. -/
theorem cut_reconstructs_original_witness :
    (0 : ℝ) < 2 ∧ (2 : ℝ) ≤ segLength ⟨0, 0⟩ ⟨10, 0⟩ ∧
    (∃ l1 l2,
      cutLine [⟨0, 0⟩, ⟨10, 0⟩] 0 2 = .ok (l1, l2) ∧
      l1.dropLast ++ l2.tail = [⟨0, 0⟩, ⟨10, 0⟩]) :=
  ⟨by norm_num, by rw [segLength_ex1]; norm_num,
   cut_reconstructs_original [⟨0, 0⟩, ⟨10, 0⟩] 0 2 ⟨0, 0⟩ ⟨10, 0⟩ rfl rfl
     (by norm_num) (by rw [segLength_ex1]; norm_num)⟩

/-- C5: the two new points are appended and prepended to the output lines,
are given by `M ± (width/2)·U`, sum to twice the midpoint coordinatewise,
and both lie on the straight line through `P1` and `P2` (cross product with
the segment direction vanishes). -/
theorem cut_points_on_segment_line (line : List Point) (point_idx : ℕ)
    (width : ℝ) (p1 p2 : Point)
    (hp1 : (line)[point_idx]? = some p1) (hp2 : (line)[point_idx + 1]? = some p2)
    (hw : 0 < width) (hD : width ≤ segLength p1 p2) :
    ∃ l1 l2,
      cutLine line point_idx width = .ok (l1, l2) ∧
      l1.getLast? = some (new_point1 p1 p2 width) ∧
      l2.head? = some (new_point2 p1 p2 width) ∧
      (new_point1 p1 p2 width).x + (new_point2 p1 p2 width).x
        = 2 * ((p1.x + p2.x) / 2) ∧
      (new_point1 p1 p2 width).y + (new_point2 p1 p2 width).y
        = 2 * ((p1.y + p2.y) / 2) ∧
      ((new_point1 p1 p2 width).x - p1.x) * (p2.y - p1.y)
        = ((new_point1 p1 p2 width).y - p1.y) * (p2.x - p1.x) ∧
      ((new_point2 p1 p2 width).x - p1.x) * (p2.y - p1.y)
        = ((new_point2 p1 p2 width).y - p1.y) * (p2.x - p1.x) := by
  have h0 : segLength p1 p2 ≠ 0 := ne_of_gt (lt_of_lt_of_le hw hD)
  refine ⟨_, _, cutLine_ok line point_idx width p1 p2 hp1 hp2 h0 (not_lt.mpr hD),
    ?_, rfl, ?_, ?_, ?_, ?_⟩
  · simp
  · simp only [new_point1, new_point2, segment_unit_vector]; ring
  · simp only [new_point1, new_point2, segment_unit_vector]; ring
  · simp only [new_point1, segment_unit_vector]; ring
  · simp only [new_point2, segment_unit_vector]; ring

/-- C5 witness: the hypotheses hold for the example line with width 2. -/
theorem cut_points_on_segment_line_witness :
    (0 : ℝ) < 2 ∧ (2 : ℝ) ≤ segLength ⟨0, 0⟩ ⟨10, 0⟩ ∧
    (∃ l1 l2,
      cutLine [⟨0, 0⟩, ⟨10, 0⟩] 0 2 = .ok (l1, l2) ∧
      l1.getLast? = some (new_point1 ⟨0, 0⟩ ⟨10, 0⟩ 2) ∧
      l2.head? = some (new_point2 ⟨0, 0⟩ ⟨10, 0⟩ 2) ∧
      (new_point1 ⟨0, 0⟩ ⟨10, 0⟩ 2).x + (new_point2 ⟨0, 0⟩ ⟨10, 0⟩ 2).x
        = 2 * (((0 : ℝ) + 10) / 2) ∧
      (new_point1 ⟨0, 0⟩ ⟨10, 0⟩ 2).y + (new_point2 ⟨0, 0⟩ ⟨10, 0⟩ 2).y
        = 2 * (((0 : ℝ) + 0) / 2) ∧
      ((new_point1 ⟨0, 0⟩ ⟨10, 0⟩ 2).x - 0) * ((0 : ℝ) - 0)
        = ((new_point1 ⟨0, 0⟩ ⟨10, 0⟩ 2).y - 0) * ((10 : ℝ) - 0) ∧
      ((new_point2 ⟨0, 0⟩ ⟨10, 0⟩ 2).x - 0) * ((0 : ℝ) - 0)
        = ((new_point2 ⟨0, 0⟩ ⟨10, 0⟩ 2).y - 0) * ((10 : ℝ) - 0)) :=
  ⟨by norm_num, by rw [segLength_ex1]; norm_num,
   cut_points_on_segment_line [⟨0, 0⟩, ⟨10, 0⟩] 0 2 ⟨0, 0⟩ ⟨10, 0⟩ rfl rfl
     (by norm_num) (by rw [segLength_ex1]; norm_num)⟩

/-- C10: a nonpositive width on a nondegenerate segment never trips the
too-short check; the cut succeeds with the usual formulas, and width zero
puts both new points at the midpoint. -/
theorem nonpositive_width_succeeds (line : List Point) (point_idx : ℕ)
    (width : ℝ) (p1 p2 : Point)
    (hp1 : (line)[point_idx]? = some p1) (hp2 : (line)[point_idx + 1]? = some p2)
    (hD : 0 < segLength p1 p2) (hw : width ≤ 0) :
    cutLine line point_idx width =
      .ok (line.take (point_idx + 1) ++ [new_point1 p1 p2 width],
       new_point2 p1 p2 width :: line.drop (point_idx + 1)) ∧
    (width = 0 →
      new_point1 p1 p2 width = ⟨(p1.x + p2.x) / 2, (p1.y + p2.y) / 2⟩ ∧
      new_point2 p1 p2 width = ⟨(p1.x + p2.x) / 2, (p1.y + p2.y) / 2⟩) := by
  refine ⟨cutLine_ok line point_idx width p1 p2 hp1 hp2 (ne_of_gt hD)
    (not_lt.mpr (hw.trans hD.le)), fun h => ?_⟩
  subst h
  constructor <;> (apply Point.ext <;> simp [new_point1, new_point2])

lemma segLength_ex2 : segLength ⟨0, 0⟩ ⟨1, 0⟩ = 1 := by
  rw [segLength_horizontal]; norm_num

/-- C10 witness: the hypotheses hold for a unit segment with width 0. -/
theorem nonpositive_width_succeeds_witness :
    (0 : ℝ) < segLength ⟨0, 0⟩ ⟨1, 0⟩ ∧ (0 : ℝ) ≤ 0 ∧
    (cutLine [⟨0, 0⟩, ⟨1, 0⟩] 0 0 =
      .ok ([(⟨0, 0⟩ : Point), ⟨1, 0⟩].take 1 ++ [new_point1 ⟨0, 0⟩ ⟨1, 0⟩ 0],
       new_point2 ⟨0, 0⟩ ⟨1, 0⟩ 0 :: [(⟨0, 0⟩ : Point), ⟨1, 0⟩].drop 1) ∧
    ((0 : ℝ) = 0 →
      new_point1 ⟨0, 0⟩ ⟨1, 0⟩ 0 = ⟨((0 : ℝ) + 1) / 2, ((0 : ℝ) + 0) / 2⟩ ∧
      new_point2 ⟨0, 0⟩ ⟨1, 0⟩ 0 = ⟨((0 : ℝ) + 1) / 2, ((0 : ℝ) + 0) / 2⟩)) :=
  ⟨by rw [segLength_ex2]; norm_num, le_refl 0,
   nonpositive_width_succeeds [⟨0, 0⟩, ⟨1, 0⟩] 0 0 ⟨0, 0⟩ ⟨1, 0⟩ rfl rfl
     (by rw [segLength_ex2]; norm_num) (le_refl 0)⟩

lemma segLength_ex0 : segLength ⟨0, 0⟩ ⟨0, 0⟩ = 0 := by
  rw [segLength_horizontal]; norm_num

/-- C3: at a degenerate zero-length segment the code fails with the
division-by-zero error of the unit-vector computation, not with the
segment-too-short error the spec prescribes for `D < width`. -/
theorem degenerate_segment_zero_division :
    cutLine [⟨0, 0⟩, ⟨0, 0⟩] 0 1 = .error .zeroDivision := by
  simp only [cutLine, List.getElem?_cons_zero, List.getElem?_cons_succ]
  rw [if_pos segLength_ex0]

lemma set_insertIdx_eq {α : Type _} (l : List α) (i : ℕ) (a b : α)
    (h : i < l.length) :
    (l.set i a).insertIdx (i + 1) b = l.take i ++ [a, b] ++ l.drop (i + 1) := by
  induction l generalizing i with
  | nil => simp at h
  | cons x xs ih =>
    cases i with
    | zero => simp [List.insertIdx]
    | succ n =>
      simp only [List.set, List.insertIdx_succ_cons, List.take, List.drop,
        List.cons_append]
      rw [ih n (by simpa using h)]

/-- C4: a successful cut replaces the line at `line_idx` with the first
output line, inserts the second right after it, leaves every other line in
place and in order, and grows the collection by exactly one line. -/
theorem cut_frame_effect (width : ℝ) (line_idx point_idx : ℕ)
    (lines : List (List Point)) (line l1 l2 : List Point)
    (hline : (lines)[line_idx]? = some line)
    (hcut : cutLine line point_idx width = .ok (l1, l2)) :
    cutLinesRun width line_idx point_idx lines =
      (lines.take line_idx ++ [l1, l2] ++ lines.drop (line_idx + 1), none) ∧
    (cutLinesRun width line_idx point_idx lines).1.length = lines.length + 1 := by
  have hlen : line_idx < lines.length := by
    by_contra hc
    rw [List.getElem?_eq_none (le_of_not_lt hc)] at hline
    exact Option.noConfusion hline
  have hrun : cutLinesRun width line_idx point_idx lines =
      (lines.take line_idx ++ [l1, l2] ++ lines.drop (line_idx + 1), none) := by
    simp only [cutLinesRun, hline, hcut]
    rw [set_insertIdx_eq lines line_idx l1 l2 hlen]
  refine ⟨hrun, ?_⟩
  rw [hrun]
  simp [List.length_take, List.length_drop]
  omega

/-- C4 witness: the hypotheses hold for a one-line shape at the example. -/
theorem cut_frame_effect_witness :
    (([[(⟨0, 0⟩ : Point), ⟨10, 0⟩]] : List (List Point)))[0]? =
        some [⟨0, 0⟩, ⟨10, 0⟩] ∧
    (cutLinesRun 2 0 0 [[⟨0, 0⟩, ⟨10, 0⟩]] =
      ([[(⟨0, 0⟩ : Point), ⟨10, 0⟩]].take 0 ++
        [[⟨0, 0⟩, ⟨4, 0⟩], [⟨6, 0⟩, ⟨10, 0⟩]] ++
        [[(⟨0, 0⟩ : Point), ⟨10, 0⟩]].drop 1, none) ∧
     (cutLinesRun 2 0 0 [[⟨0, 0⟩, ⟨10, 0⟩]]).1.length =
       ([[(⟨0, 0⟩ : Point), ⟨10, 0⟩]] : List (List Point)).length + 1) :=
  ⟨rfl, cut_frame_effect 2 0 0 [[⟨0, 0⟩, ⟨10, 0⟩]] [⟨0, 0⟩, ⟨10, 0⟩]
    [⟨0, 0⟩, ⟨4, 0⟩] [⟨6, 0⟩, ⟨10, 0⟩] rfl cutLine_example⟩

/-- C6: whenever the cut operation fails, the line collection it returns is
exactly the input collection: nothing is replaced or inserted. -/
theorem cut_failure_no_mutation (width : ℝ) (line_idx point_idx : ℕ)
    (lines out : List (List Point)) (e : CutError)
    (h : cutLinesRun width line_idx point_idx lines = (out, some e)) :
    out = lines := by
  rcases hg : (lines)[line_idx]? with _ | line
  · simp only [cutLinesRun, hg] at h
    exact (congrArg Prod.fst h).symm
  · rcases hc : cutLine line point_idx width with e2 | p
    · simp only [cutLinesRun, hg, hc] at h
      exact (congrArg Prod.fst h).symm
    · rcases p with ⟨l1, l2⟩
      simp only [cutLinesRun, hg, hc] at h
      exact Option.noConfusion (congrArg Prod.snd h)

lemma cutLine_short_example :
    cutLine [⟨0, 0⟩, ⟨1, 0⟩] 0 2 = .error .segmentTooShort := by
  simp only [cutLine, List.getElem?_cons_zero, List.getElem?_cons_succ]
  rw [if_neg (by rw [segLength_ex2]; norm_num),
    if_pos (by rw [segLength_ex2]; norm_num)]

lemma cutLinesRun_short_example :
    cutLinesRun 2 0 0 [[⟨0, 0⟩, ⟨1, 0⟩]] =
      ([[⟨0, 0⟩, ⟨1, 0⟩]], some .segmentTooShort) := by
  simp only [cutLinesRun, List.getElem?_cons_zero, cutLine_short_example]

/-- C6 witness: a too-short cut fails and returns the collection as it was. -/
theorem cut_failure_no_mutation_witness :
    cutLinesRun 2 0 0 [[⟨0, 0⟩, ⟨1, 0⟩]] =
      ([[⟨0, 0⟩, ⟨1, 0⟩]], some .segmentTooShort) ∧
    ([[(⟨0, 0⟩ : Point), ⟨1, 0⟩]] : List (List Point)) = [[⟨0, 0⟩, ⟨1, 0⟩]] :=
  ⟨cutLinesRun_short_example,
   cut_failure_no_mutation 2 0 0 [[⟨0, 0⟩, ⟨1, 0⟩]] [[⟨0, 0⟩, ⟨1, 0⟩]]
     .segmentTooShort cutLinesRun_short_example⟩

lemma head?_filter_eq_find? (p : Level → Bool) (ls : List Level) :
    (ls.filter p).head? = ls.find? p := by
  induction ls with
  | nil => rfl
  | cons a as ih =>
    by_cases h : p a <;> simp [List.filter_cons, List.find?_cons, h, ih]

/-- C7 counterexample: an explicitly provided empty-string name selector
matches no level, yet the operation fails with the missing-selector error,
not with `LevelNotFoundError` (Python truthiness treats `""` as absent). -/
theorem empty_selector_counterexample :
    selectLevel (some "") none [⟨"id1", "a", []⟩] = .error .missingSelector ∧
    (⟨"id1", "a", []⟩ : Level).name ≠ "" ∧
    selectLevel (some "") none [⟨"id1", "a", []⟩] ≠ .error .levelNotFound := by
  refine ⟨rfl, by simp, fun h => ?_⟩
  rw [show selectLevel (some "") none [⟨"id1", "a", []⟩] =
    .error .missingSelector from rfl] at h
  simp at h

/-- C7 (amended): for every non-empty provided selector (name taking
precedence), if no level matches it exactly the operation fails with
`LevelNotFoundError`; if neither a non-empty name nor a non-empty id is
provided (an empty string counts as absent), it fails with the
missing-selector error. -/
theorem selector_error_handling (name idSel : Option String)
    (levels : List Level) :
    (∀ n, name = some n → n ≠ "" → (∀ level ∈ levels, level.name ≠ n) →
        selectLevel name idSel levels = .error .levelNotFound) ∧
    (truthy name = false → ∀ i, idSel = some i → i ≠ "" →
        (∀ level ∈ levels, level.id ≠ i) →
        selectLevel name idSel levels = .error .levelNotFound) ∧
    (truthy name = false → truthy idSel = false →
        selectLevel name idSel levels = .error .missingSelector) := by
  refine ⟨?_, ?_, ?_⟩
  · rintro n rfl hn hnone
    have ht : truthy (some n) = true := by simp [truthy, hn]
    have hfil : levels.filter (fun level => level.name == n) = [] := by
      rw [List.filter_eq_nil_iff]
      intro level hmem
      simpa using hnone level hmem
    simp [selectLevel, filterLevels, ht, hfil]
  · rintro hf i rfl hi hnone
    have ht : truthy (some i) = true := by simp [truthy, hi]
    have hfil : levels.filter (fun level => level.id == i) = [] := by
      rw [List.filter_eq_nil_iff]
      intro level hmem
      simpa using hnone level hmem
    simp [selectLevel, filterLevels, hf, ht, hfil]
  · intro hf hg
    simp [selectLevel, filterLevels, hf, hg]

/-- C7 witness: the three error behaviors at concrete selectors. -/
theorem selector_error_handling_witness :
    selectLevel (some "b") none [⟨"id1", "a", []⟩] = .error .levelNotFound ∧
    selectLevel none (some "zz") [⟨"id1", "a", []⟩] = .error .levelNotFound ∧
    selectLevel none none [⟨"id1", "a", []⟩] = .error .missingSelector :=
  ⟨(selector_error_handling (some "b") none [⟨"id1", "a", []⟩]).1 "b" rfl
     (by simp) (by simp),
   (selector_error_handling none (some "zz") [⟨"id1", "a", []⟩]).2.1 rfl "zz"
     rfl (by simp) (by simp),
   (selector_error_handling none none [⟨"id1", "a", []⟩]).2.2 rfl rfl⟩

/-- C9: with a truthy name selector the id selector is ignored entirely
(the filter only consults names), and the level operated on is the first
matching level in file order. -/
theorem name_precedence_first_match (n : String) (idSel : Option String)
    (levels : List Level) (hn : n ≠ "") :
    filterLevels (some n) idSel levels =
      .ok (levels.filter fun level => level.name == n) ∧
    selectLevel (some n) idSel levels =
      (match levels.find? (fun level => level.name == n) with
       | some level => .ok level
       | none => .error .levelNotFound) := by
  have ht : truthy (some n) = true := by simp [truthy, hn]
  have hfl : filterLevels (some n) idSel levels =
      .ok (levels.filter fun level => level.name == n) := by
    simp [filterLevels, ht]
  refine ⟨hfl, ?_⟩
  rcases hf : levels.filter (fun level => level.name == n) with _ | ⟨l, rest⟩
  · have : levels.find? (fun level => level.name == n) = none := by
      rw [← head?_filter_eq_find?, hf]; rfl
    rw [this]
    simp [selectLevel, hfl, hf]
  · have : levels.find? (fun level => level.name == n) = some l := by
      rw [← head?_filter_eq_find?, hf]; rfl
    rw [this]
    simp [selectLevel, hfl, hf]

/-- C9 witness: with two levels both named `a`, selecting name `a` while
passing the second level's id still returns the first level. -/
theorem name_precedence_first_match_witness :
    ("a" : String) ≠ "" ∧
    (filterLevels (some "a") (some "id2") [⟨"id1", "a", []⟩, ⟨"id2", "a", []⟩] =
      .ok (([⟨"id1", "a", []⟩, ⟨"id2", "a", []⟩] : List Level).filter
        fun level => level.name == "a") ∧
    selectLevel (some "a") (some "id2") [⟨"id1", "a", []⟩, ⟨"id2", "a", []⟩] =
      (match ([⟨"id1", "a", []⟩, ⟨"id2", "a", []⟩] : List Level).find?
          (fun level => level.name == "a") with
       | some level => .ok level
       | none => .error .levelNotFound)) :=
  ⟨by simp,
   name_precedence_first_match "a" (some "id2")
     [⟨"id1", "a", []⟩, ⟨"id2", "a", []⟩] (by simp)⟩

end Bouncy
